import Mathlib

/-!
# FlashCardGPT: the document-to-flashcard route

A shallow embedding of `src/app/api/generate-flashcards/route.js`:
`extractTextFromFile`, the parse/validate step of `generateFlashcards`, and `POST`
with its catch handler.

Conventions of the embedding.
* A JavaScript string is a list of characters (`Str`).
* A thrown `Error` is represented by its `message`; a function that may throw
  returns `Except Str _`.
* The libraries the route calls (`Buffer.toString`, `pdf-parse`, `mammoth`, the
  OpenAI client, `JSON.parse`) are not part of the repository; they are the fields
  of `Env`, and every theorem holds for all of them.
-/

namespace FlashCardGPT

/-! ## Strings -/

/-- A JavaScript string. -/
abbrev Str := List Char

/-- The backtick character, U+0060. -/
def tick : Char := Char.ofNat 96

/-- The three-backtick marker of a fenced code block. -/
def fence : Str := [tick, tick, tick]

/-- The characters matched by the regular-expression class `\s`, which are also the
characters removed by `String.prototype.trim` (WhiteSpace and LineTerminator). -/
def isWhiteSpace (c : Char) : Bool :=
  c.toNat = 0x09 || c.toNat = 0x0A || c.toNat = 0x0B || c.toNat = 0x0C || c.toNat = 0x0D ||
  c.toNat = 0x20 || c.toNat = 0xA0 || c.toNat = 0x1680 ||
  (0x2000 ≤ c.toNat && c.toNat ≤ 0x200A) ||
  c.toNat = 0x2028 || c.toNat = 0x2029 || c.toNat = 0x202F || c.toNat = 0x205F ||
  c.toNat = 0x3000 || c.toNat = 0xFEFF

/-- Removes the leading white space of a string. -/
def trimStart (s : Str) : Str := s.dropWhile isWhiteSpace

/-- Removes the trailing white space of a string. -/
def trimEnd (s : Str) : Str := (s.reverse.dropWhile isWhiteSpace).reverse

/-- The method `String.prototype.trim`. -/
def trim (s : Str) : Str := trimEnd (trimStart s)

/-- Matches the literal `p` at the start of the input and returns the rest. -/
def dropLit : Str → Str → Option Str
  | [], s => some s
  | _ :: _, [] => none
  | p :: ps, c :: cs => if p = c then dropLit ps cs else none

/-- The method `String.prototype.includes`: `p` occurs somewhere in `s`. -/
def includes : Str → Str → Bool
  | [], p => (dropLit p []).isSome
  | c :: cs, p => (dropLit p (c :: cs)).isSome || includes cs p

/-! ## The regular expression of `generateFlashcards`

The pattern is: fence, `(?:json)?`, `\s*`, `([\s\S]*?)`, `\s*`, fence.
`String.prototype.match` with a pattern that has no `g` flag tries the start positions
from left to right and, at each, explores the alternatives in the backtracking order of
the pattern: greedy quantifiers longest first, the lazy one shortest first. -/

/-- Greedy `\s*` followed by the rest `k` of the pattern: the longest run of white space
is tried first, then the shorter ones. -/
def wsStar {α : Type} (k : Str → Option α) : Str → Option α
  | [] => k []
  | c :: cs =>
    if isWhiteSpace c then
      match wsStar k cs with
      | some r => some r
      | none => k (c :: cs)
    else k (c :: cs)

/-- Lazy `([\s\S]*?)` followed by the rest `k` of the pattern: the shortest capture is
tried first. `acc` is the text captured so far; the result is the capture. -/
def lazyCapture (k : Str → Option Str) : Str → Str → Option Str
  | acc, [] => (k []).map (fun _ => acc)
  | acc, c :: cs =>
    match k (c :: cs) with
    | some _ => some acc
    | none => lazyCapture k (acc ++ [c]) cs

/-- The part of the pattern after the optional tag: `\s*([\s\S]*?)\s*` and the closing
fence. Returns capture group 1. -/
def afterTag (s : Str) : Option Str :=
  wsStar (fun s1 => lazyCapture (fun s2 => wsStar (dropLit fence) s2) [] s1) s

/-- The optional tag of the opening fence. -/
def tagJson : Str := "json".toList

/-- The whole pattern, tried at the start of `s`. The greedy `(?:json)?` first tries to
consume the tag and, if the rest then fails, retries without it. -/
def matchHere (s : Str) : Option Str :=
  match dropLit fence s with
  | none => none
  | some s1 =>
    match (match dropLit tagJson s1 with
           | some s2 => afterTag s2
           | none => none) with
    | some cap => some cap
    | none => afterTag s1

/-- The value of `jsonMatch[1]` for `jsonContent.match(...)`: capture group 1 of the
leftmost match, or `none` when the pattern matches nowhere (`jsonMatch` is `null`). -/
def regexMatch : Str → Option Str
  | [] => matchHere []
  | c :: cs =>
    match matchHere (c :: cs) with
    | some cap => some cap
    | none => regexMatch cs

/-! ## JSON values -/

/-- The numbers `JSON.parse` can return: a finite double `m * 2 ^ e`, where `m = 0` is
positive zero; negative zero, from the literal `-0`; or an infinity, which an overflowing
literal such as `1e999` produces. -/
inductive JSNumber where
  | finite (m e : Int)
  | negZero
  | infinity (negative : Bool)

/-- The values `JSON.parse` can return. An object is the list of its own properties. -/
inductive JSValue where
  | null
  | bool (b : Bool)
  | num (x : JSNumber)
  | str (s : Str)
  | arr (items : List JSValue)
  | obj (props : List (Str × JSValue))

/-- The abstract operation ToBoolean on the result of a property read, where `none` is
`undefined`: `!v` is the negation of this. -/
def truthy : Option JSValue → Bool
  | none => false
  | some .null => false
  | some (.bool b) => b
  | some (.num (.finite m _)) => m != 0
  | some (.num .negZero) => false
  | some (.num (.infinity _)) => true
  | some (.str s) => !s.isEmpty
  | some (.arr _) => true
  | some (.obj _) => true

/-- The property read `card[key]` for the keys `question` and `answer`: an own property
of an object; `undefined` on a number, boolean, string or array, which have no such
property; a TypeError on `null`. -/
def getProp (card : JSValue) (key : Str) : Except Str (Option JSValue) :=
  match card with
  | .null => .error ("Cannot read properties of null (reading '".toList ++ key ++ "')".toList)
  | .obj props => .ok (props.lookup key)
  | _ => .ok none

/-! ## Serialisation of a response body

`NextResponse.json` writes its argument with `JSON.stringify`. The body of a response is
represented by the value its JSON text denotes, which is the value the caller reads.
For a value that came from `JSON.parse` the text denotes the same value, except for the
numbers JSON cannot write: an infinity is written `null`, and negative zero is written
`0`. -/

mutual
/-- The value denoted by the text `JSON.stringify` writes for a value. -/
def serialize : JSValue → JSValue
  | .null => .null
  | .bool b => .bool b
  | .num (.finite m e) => .num (.finite m e)
  | .num .negZero => .num (.finite 0 0)
  | .num (.infinity _) => .null
  | .str s => .str s
  | .arr items => .arr (serializeList items)
  | .obj props => .obj (serializeProps props)
/-- The function `serialize` on the elements of an array, in order. -/
def serializeList : List JSValue → List JSValue
  | [] => []
  | v :: vs => serialize v :: serializeList vs
/-- The function `serialize` on the values of the properties of an object, in order. -/
def serializeProps : List (Str × JSValue) → List (Str × JSValue)
  | [] => []
  | (k, v) :: ps => (k, serialize v) :: serializeProps ps
end

mutual
/-- The value holds no infinity and no negative zero: JSON can write it as it is. -/
def writable : JSValue → Bool
  | .null => true
  | .bool _ => true
  | .num (.finite _ _) => true
  | .num .negZero => false
  | .num (.infinity _) => false
  | .str _ => true
  | .arr items => writableList items
  | .obj props => writableProps props
/-- Every element of the array is writable. -/
def writableList : List JSValue → Bool
  | [] => true
  | v :: vs => writable v && writableList vs
/-- Every property value of the object is writable. -/
def writableProps : List (Str × JSValue) → Bool
  | [] => true
  | (_, v) :: ps => writable v && writableProps ps
end

/-! ## The environment -/

/-- A byte buffer. -/
abbrev Bytes := List UInt8

/-- An uploaded `File`: its declared MIME type and its content. -/
structure File where
  type : Str
  bytes : Bytes

/-- The value of `formData.get('file')`: `null` when the form has no such entry, a string
when the entry is a text field, a `File` when it is an upload. -/
inductive FormEntry where
  | absent
  | text (value : Str)
  | file (f : File)

/-- The library calls of the route. A call that rejects or throws yields the message of
its error. -/
structure Env where
  /-- The call `buffer.toString('utf-8')`. -/
  decodeUtf8 : Bytes → Str
  /-- The call `pdf(buffer)` of pdf-parse, followed by the read of `pdfData.text`. -/
  pdf : Bytes → Except Str Str
  /-- The call `mammoth.extractRawText({ buffer })`, followed by the read of
  `result.value`. -/
  mammoth : Bytes → Except Str Str
  /-- The call `openai.chat.completions.create` with the given user prompt, followed by
  the read of `response.choices[0].message.content`. -/
  chat : Str → Except Str Str
  /-- The call `JSON.parse`, which throws a SyntaxError on invalid text. -/
  jsonParse : Str → Except Str JSValue

/-! ## The fixed texts of the route -/

/-- The MIME type of plain text. -/
def typeText : Str := "text/plain".toList

/-- The MIME type of PDF. -/
def typePdf : Str := "application/pdf".toList

/-- The MIME type of modern Word documents. -/
def typeDocx : Str :=
  "application/vnd.openxmlformats-officedocument.wordprocessingml.document".toList

/-- The MIME type of legacy Word documents. -/
def typeDoc : Str := "application/msword".toList

/-- The message thrown when pdf-parse fails. -/
def msgPdf : Str := "Could not parse PDF file. Please check the file format.".toList

/-- The start of the message thrown for a type outside the supported set. -/
def msgUnsupported : Str := "Unsupported file type: ".toList

/-- The message thrown when the extracted text is blank. -/
def msgNoText : Str := "No text could be extracted from the file".toList

/-- The message thrown when the parsed value is not an array. -/
def msgNotArray : Str := "Response is not an array".toList

/-- The start of every message thrown by the inner `catch` of `generateFlashcards`. -/
def msgParse : Str := "Failed to parse flashcards: ".toList

/-- The property name `question`. -/
def keyQuestion : Str := "question".toList

/-- The property name `answer`. -/
def keyAnswer : Str := "answer".toList

/-- The first pattern tested by the `catch` handler of `POST`. -/
def patRateLimit : Str := "rate_limit".toList

/-- The second pattern tested by the `catch` handler of `POST`. -/
def patContextExceeded : Str := "context_length_exceeded".toList

/-- The third pattern tested by the `catch` handler of `POST`. -/
def patMaxContext : Str := "maximum context length".toList

/-- The body text of the 429 response. -/
def msgRateLimit : Str := "Rate limit exceeded. Please try again in a few minutes.".toList

/-- The body text of the 413 response. -/
def msgTooLarge : Str := "Document is too large. Please try with a smaller document.".toList

/-- The body text of the 500 response. -/
def msgInternal : Str := "Failed to generate flashcards. Please try again.".toList

/-- The body text of the 400 response for a request without a file. -/
def msgNoFile : Str := "No file provided".toList

/-- The message of the TypeError thrown at line 11 when `extractTextFromFile` is called
with a string, which has no method `arrayBuffer`. -/
def msgNotFunction : Str := "file.arrayBuffer is not a function".toList

/-- The body text of the 400 response of the check after extraction. -/
def msgEmptyDoc : Str := "The uploaded document is empty or could not be read.".toList

/-! ## `extractTextFromFile` -/

/-- The branch of `extractTextFromFile` on `file.type` (lines 16 to 43). -/
def extractByType (env : Env) (file : File) : Except Str Str :=
  if file.type = typeText then
    .ok (env.decodeUtf8 file.bytes)
  else if file.type = typePdf then
    match env.pdf file.bytes with
    | .ok text => .ok text
    | .error _ => .error msgPdf
  else if file.type = typeDocx ∨ file.type = typeDoc then
    env.mammoth file.bytes
  else
    .error (msgUnsupported ++ file.type)

/-- The function `extractTextFromFile`. Its outer `catch` logs and rethrows. -/
def extractTextFromFile (env : Env) (file : File) : Except Str Str :=
  match extractByType env file with
  | .error e => .error e
  | .ok textContent =>
    if textContent.isEmpty || (trim textContent).length == 0 then
      .error msgNoText
    else
      .ok textContent

/-! ## `generateFlashcards` -/

/-- The user prompt built from the document text (lines 59 to 65). -/
def buildPrompt (content : Str) : Str :=
  ("Generate flashcards from the following content. Respond ONLY with a JSON array of " ++
   "flashcard objects. Each object must have \"question\" and \"answer\" fields. Do not " ++
   "include any other text or explanations.\n\nContent:\n").toList
  ++ content ++ "\n\nFlashcards:\n".toList

/-- The text handed to `JSON.parse` (lines 79 to 85): the trimmed message, replaced by
capture group 1 when the pattern matches. -/
def cleanContent (assistantMessage : Str) : Str :=
  let jsonContent := trim assistantMessage
  match regexMatch jsonContent with
  | some cap => cap
  | none => jsonContent

/-- The message thrown for a card without a question or an answer. -/
def missingMsg (index : Nat) : Str :=
  "Flashcard at index ".toList ++ (Nat.repr index).toList ++
    " is missing question or answer".toList

/-- The `forEach` of lines 95 to 99, from the element with index `index` on. The test
`!card.question || !card.answer` reads `answer` only when `question` is truthy. -/
def checkCards : List JSValue → Nat → Except Str Unit
  | [], _ => .ok ()
  | card :: rest, index =>
    match getProp card keyQuestion with
    | .error e => .error e
    | .ok q =>
      if !truthy q then .error (missingMsg index)
      else
        match getProp card keyAnswer with
        | .error e => .error e
        | .ok a =>
          if !truthy a then .error (missingMsg index)
          else checkCards rest (index + 1)

/-- The body of the inner `try` (lines 88 to 101). -/
def parseCards (env : Env) (jsonContent : Str) : Except Str (List JSValue) :=
  match env.jsonParse jsonContent with
  | .error e => .error e
  | .ok (.arr flashcards) =>
    match checkCards flashcards 0 with
    | .error e => .error e
    | .ok () => .ok flashcards
  | .ok _ => .error msgNotArray

/-- The parse/validate step of `generateFlashcards` (lines 78 to 106), applied to the
content of the assistant message. The inner `catch` wraps every failure. -/
def parseResponse (env : Env) (assistantMessage : Str) : Except Str (List JSValue) :=
  match parseCards env (cleanContent assistantMessage) with
  | .ok flashcards => .ok flashcards
  | .error e => .error (msgParse ++ e)

/-- The function `generateFlashcards`. Its outer `catch` logs and rethrows. -/
def generateFlashcards (env : Env) (content : Str) : Except Str (List JSValue) :=
  match env.chat (buildPrompt content) with
  | .error e => .error e
  | .ok assistantMessage => parseResponse env assistantMessage

/-! ## `POST` -/

/-- The body of a JSON response of the route, as the caller reads it. -/
inductive Body where
  | error (message : Str)
  | cards (flashcards : List JSValue) (totalChunks processedChunks : Nat)

/-- A response built by `NextResponse.json`; the status is 200 when none is given. -/
structure Response where
  status : Nat
  body : Body

/-- The `catch` handler of `POST` (lines 144 to 165), applied to `error.message`. -/
def handleError (message : Str) : Response :=
  if includes message patRateLimit then
    ⟨429, .error msgRateLimit⟩
  else if includes message patContextExceeded
      || includes message patMaxContext then
    ⟨413, .error msgTooLarge⟩
  else
    ⟨500, .error msgInternal⟩

/-- The `try` block of `POST` (lines 116 to 142). The request is given by the outcome of
`request.formData()` and, when it succeeds, the value of `formData.get('file')`. The test
`!file` holds for `null` and for the empty string. A non-empty string passes it, and
`extractTextFromFile` then throws at its first statement, `file.arrayBuffer()`. The body
of the 200 response is written by `NextResponse.json`. -/
def postTry (env : Env) (request : Except Str FormEntry) : Except Str Response :=
  match request with
  | .error e => .error e
  | .ok .absent => .ok ⟨400, .error msgNoFile⟩
  | .ok (.text value) =>
    if value.isEmpty then .ok ⟨400, .error msgNoFile⟩
    else .error msgNotFunction
  | .ok (.file file) =>
    match extractTextFromFile env file with
    | .error e => .error e
    | .ok content =>
      if content.isEmpty then
        .ok ⟨400, .error msgEmptyDoc⟩
      else
        match generateFlashcards env content with
        | .error e => .error e
        | .ok flashcards => .ok ⟨200, .cards (serializeList flashcards) 1 1⟩

/-- The handler `POST`. -/
def POST (env : Env) (request : Except Str FormEntry) : Response :=
  match postTry env request with
  | .ok response => response
  | .error message => handleError message


/-! ## Properties of cards used in the statements -/

/-- The card has a truthy `question` and a truthy `answer`: it passes the test of the
`forEach` in `generateFlashcards`. -/
def passesCheck (card : JSValue) : Bool :=
  match getProp card keyQuestion, getProp card keyAnswer with
  | .ok q, .ok a => truthy q && truthy a
  | _, _ => false

/-- The result of a property read is `undefined` or a string. -/
def absentOrString : Option JSValue → Bool
  | none => true
  | some (.str _) => true
  | some _ => false

/-- The result of a property read is `undefined` or the empty string. -/
def absentOrEmpty : Option JSValue → Bool
  | none => true
  | some (.str s) => s.isEmpty
  | some _ => false

/-- The result of a property read is a non-empty string. -/
def nonEmptyString : Option JSValue → Bool
  | some (.str s) => !s.isEmpty
  | _ => false

/-- An object whose `question` and `answer`, where present, are strings. -/
def isTextCard : JSValue → Bool
  | .obj props => absentOrString (props.lookup keyQuestion) && absentOrString (props.lookup keyAnswer)
  | _ => false

/-- An object that lacks a `question` or an `answer`, or has one equal to the empty
string. -/
def lacksField : JSValue → Bool
  | .obj props => absentOrEmpty (props.lookup keyQuestion) || absentOrEmpty (props.lookup keyAnswer)
  | _ => false

/-! ## Sample environments -/

/-- A `JSON.parse` known on the texts of a table: each text is paired with the value
`JSON.parse` returns for it, and any other text is treated as a syntax error. -/
def tableParse (table : List (Str × JSValue)) (text : Str) : Except Str JSValue :=
  match table.lookup text with
  | some v => .ok v
  | none => .error "Unexpected token".toList

/-- An environment whose backend answers `reply`, whose `JSON.parse` is given by a table,
whose decoder reads ASCII bytes, and whose PDF and Word libraries reject their input. -/
def sampleEnv (reply : Str) (table : List (Str × JSValue)) : Env where
  decodeUtf8 := fun bytes => bytes.map (fun b => Char.ofNat b.toNat)
  pdf := fun _ => .error "Invalid PDF structure".toList
  mammoth := fun _ => .error "Could not find the main document part".toList
  chat := fun _ => .ok reply
  jsonParse := tableParse table

/-- An uploaded PNG image. -/
def pngFile : File := ⟨"image/png".toList, [137, 80, 78, 71]⟩

/-- A plain-text file that holds a space and a line feed. -/
def blankFile : File := ⟨typeText, [32, 10]⟩

/-- A plain-text file that holds the text `Hi`. -/
def hiFile : File := ⟨typeText, [72, 105]⟩


/-- The JSON text of one card whose question is a number and whose answer is a
boolean. -/
def untypedText : Str := "[\x7b\"question\":1,\"answer\":true\x7d]".toList

/-- The value `JSON.parse` returns for `untypedText`. -/
def untypedCard : JSValue :=
  .obj [(keyQuestion, .num (.finite 1 0)), (keyAnswer, .bool true)]

/-- The JSON text of the fail-fast example: a complete card, then one without answer. -/
def twoCardsText : Str :=
  "[\x7b\"question\":\"Q1\",\"answer\":\"A1\"\x7d,\x7b\"question\":\"Q2\"\x7d]".toList

/-- The first element of the value `JSON.parse` returns for `twoCardsText`. -/
def cardOne : JSValue :=
  .obj [(keyQuestion, .str ['Q', '1']), (keyAnswer, .str ['A', '1'])]

/-- The second element of the value `JSON.parse` returns for `twoCardsText`. -/
def cardTwo : JSValue := .obj [(keyQuestion, .str ['Q', '2'])]

/-- The JSON text of the round-trip example. -/
def oneCardText : Str := "[\x7b\"question\":\"Q\",\"answer\":\"A\"\x7d]".toList

/-- The element of the value `JSON.parse` returns for `oneCardText`. -/
def cardQA : JSValue := .obj [(keyQuestion, .str ['Q']), (keyAnswer, .str ['A'])]

/-- The text `oneCardText` in a fenced block tagged `json`. -/
def fencedOneCardText : Str :=
  "```json\n[\x7b\"question\":\"Q\",\"answer\":\"A\"\x7d]\n```".toList

/-- The JSON text of one card whose question holds a word between two fence markers. -/
def ticksInsideText : Str :=
  "[\x7b\"question\":\"What is ```x```?\",\"answer\":\"Code\"\x7d]".toList

/-- The element of the value `JSON.parse` returns for `ticksInsideText`. -/
def ticksInsideCard : JSValue :=
  .obj [(keyQuestion, .str "What is ```x```?".toList), (keyAnswer, .str "Code".toList)]

/-- An output with white space around the text `oneCardText`. -/
def paddedOneCardText : Str :=
  "  [\x7b\"question\":\"Q\",\"answer\":\"A\"\x7d]\n".toList

/-- The JSON text of two cards, the card about B before the card about A. -/
def orderedText : Str :=
  "[\x7b\"question\":\"B?\",\"answer\":\"b\"\x7d,\x7b\"question\":\"A?\",\"answer\":\"a\"\x7d]".toList

/-- The first element of the value `JSON.parse` returns for `orderedText`. -/
def cardB : JSValue := .obj [(keyQuestion, .str ['B', '?']), (keyAnswer, .str ['b'])]

/-- The second element of the value `JSON.parse` returns for `orderedText`. -/
def cardA : JSValue := .obj [(keyQuestion, .str ['A', '?']), (keyAnswer, .str ['a'])]

/-- The JSON text of one card whose question is a number literal beyond the range of a
double and whose answer is an empty array. -/
def overflowText : Str := "[\x7b\"question\":1e999,\"answer\":[]\x7d]".toList

/-- The element of the value `JSON.parse` returns for `overflowText`: the question is
`Infinity`. -/
def overflowCard : JSValue :=
  .obj [(keyQuestion, .num (.infinity false)), (keyAnswer, .arr [])]

/-- The element `overflowCard` as a response body holds it: the question is `null`. -/
def overflowCardWritten : JSValue := .obj [(keyQuestion, .null), (keyAnswer, .arr [])]

/-- The JSON text of one card whose question holds a word between two fence markers and
whose answer is the empty string. -/
def ticksEmptyAnswerText : Str :=
  "[\x7b\"question\":\"What is ```x```?\",\"answer\":\"\"\x7d]".toList

/-- The element of the value `JSON.parse` returns for `ticksEmptyAnswerText`. -/
def ticksEmptyAnswerCard : JSValue :=
  .obj [(keyQuestion, .str "What is ```x```?".toList), (keyAnswer, .str [])]

/-- A form field `file` that holds the text `notes` instead of an upload. -/
def notesEntry : FormEntry := .text "notes".toList

/-! ## Theorems -/

/-! ### Strings -/

theorem dropLit_self_append (p s : Str) : dropLit p (p ++ s) = some s := by
  induction p with
  | nil => rfl
  | cons c cs ih => simp [dropLit, ih]

theorem includes_append_left (a t : Str) : includes (a ++ t) t = true := by
  induction a with
  | nil =>
    cases t with
    | nil => rfl
    | cons c cs =>
      have h := dropLit_self_append (c :: cs) []
      simp only [List.append_nil] at h
      simp [includes, h]
  | cons x xs ih => simp [includes, ih]

theorem trimStart_eq_nil_iff (s : Str) :
    trimStart s = [] ↔ ∀ c ∈ s, isWhiteSpace c = true := by
  unfold trimStart
  exact List.dropWhile_eq_nil_iff

theorem trim_eq_nil_iff (s : Str) : trim s = [] ↔ ∀ c ∈ s, isWhiteSpace c = true := by
  constructor
  · intro h
    unfold trim trimEnd at h
    rw [List.reverse_eq_nil_iff, List.dropWhile_eq_nil_iff] at h
    have hall : ∀ c ∈ trimStart s, isWhiteSpace c = true := by
      intro c hc
      exact h c (List.mem_reverse.mpr hc)
    rw [← trimStart_eq_nil_iff]
    by_contra hne
    have hhead := List.head_dropWhile_not isWhiteSpace s hne
    have hmem : (List.dropWhile isWhiteSpace s).head hne ∈ trimStart s := List.head_mem hne
    rw [hall _ hmem] at hhead
    exact absurd hhead (by decide)
  · intro h
    have h0 : trimStart s = [] := (trimStart_eq_nil_iff s).mpr h
    simp [trim, trimEnd, h0]

/-! ### The catch handler of `POST` -/

/-- C4 (as amended): the catch handler is a function of the message alone; a message
containing `rate_limit` yields 429, a message containing `maximum context length` and not
`rate_limit` yields 413, and a message containing none of the three patterns yields 500,
each with its fixed text. -/
theorem handleError_classification (m : Str) :
    (includes m patRateLimit = true → handleError m = ⟨429, .error msgRateLimit⟩) ∧
    (includes m patRateLimit = false → includes m patMaxContext = true →
      handleError m = ⟨413, .error msgTooLarge⟩) ∧
    (includes m patRateLimit = false → includes m patContextExceeded = false →
      includes m patMaxContext = false → handleError m = ⟨500, .error msgInternal⟩) := by
  refine ⟨?_, ?_, ?_⟩
  · intro h; simp [handleError, h]
  · intro h1 h2; simp [handleError, h1, h2]
  · intro h1 h2 h3; simp [handleError, h1, h2, h3]

theorem handleError_classification_witness :
    handleError "This model's maximum context length is 128000 tokens.".toList =
      ⟨413, .error msgTooLarge⟩ :=
  (handleError_classification _).2.1 (by decide) (by decide)

/-- C4 (as stated) fails: a message that contains `maximum context length` and also
`rate_limit` is answered with 429, not with 413. -/
theorem handleError_max_context_not_always_413 :
    includes "rate_limit reached; maximum context length is 128000".toList patMaxContext = true ∧
    (handleError "rate_limit reached; maximum context length is 128000".toList).status = 429 ∧
    (handleError "rate_limit reached; maximum context length is 128000".toList).status ≠ 413 := by
  decide

/-- C8: the body of every response of the catch handler is one of three fixed texts, two
messages classified to the same status get the same response, and the 500 response is
the same whatever the message. -/
theorem handleError_hides_message (m₁ m₂ : Str) :
    ((handleError m₁).body = .error msgRateLimit ∨
      (handleError m₁).body = .error msgTooLarge ∨
      (handleError m₁).body = .error msgInternal) ∧
    ((handleError m₁).status = (handleError m₂).status → handleError m₁ = handleError m₂) ∧
    ((handleError m₁).status = 500 → handleError m₁ = ⟨500, .error msgInternal⟩) := by
  refine ⟨?_, ?_, ?_⟩
  · unfold handleError; split_ifs <;> simp
  · unfold handleError; split_ifs <;> simp
  · unfold handleError; split_ifs <;> simp

theorem handleError_hides_message_witness :
    handleError "connect ECONNREFUSED 10.0.0.7:443".toList =
      handleError "Failed to parse flashcards: Response is not an array".toList :=
  (handleError_hides_message _ _).2.1 (by decide)

/-! ### `extractTextFromFile` -/

theorem extractByType_unsupported (env : Env) (file : File)
    (h1 : file.type ≠ typeText) (h2 : file.type ≠ typePdf)
    (h3 : file.type ≠ typeDocx) (h4 : file.type ≠ typeDoc) :
    extractByType env file = .error (msgUnsupported ++ file.type) := by
  simp [extractByType, h1, h2, h3, h4]

theorem extractTextFromFile_unsupported (env : Env) (file : File)
    (h1 : file.type ≠ typeText) (h2 : file.type ≠ typePdf)
    (h3 : file.type ≠ typeDocx) (h4 : file.type ≠ typeDoc) :
    extractTextFromFile env file = .error (msgUnsupported ++ file.type) := by
  simp [extractTextFromFile, extractByType_unsupported env file h1 h2 h3 h4]

/-- C6: for a file whose declared type is none of the four supported types,
`extractTextFromFile` fails, for every content of the file and every behaviour of the
extraction libraries, with the message `Unsupported file type: ` followed by the type;
the message contains the type. -/
theorem unsupported_type_rejected_by_name (env : Env) (type : Str) (bytes : Bytes)
    (h1 : type ≠ typeText) (h2 : type ≠ typePdf) (h3 : type ≠ typeDocx)
    (h4 : type ≠ typeDoc) :
    extractTextFromFile env ⟨type, bytes⟩ = .error (msgUnsupported ++ type) ∧
    includes (msgUnsupported ++ type) type = true :=
  ⟨extractTextFromFile_unsupported env ⟨type, bytes⟩ h1 h2 h3 h4,
    includes_append_left msgUnsupported type⟩

theorem unsupported_type_rejected_by_name_witness :
    extractTextFromFile (sampleEnv [] []) pngFile =
        .error "Unsupported file type: image/png".toList ∧
      includes "Unsupported file type: image/png".toList "image/png".toList = true :=
  unsupported_type_rejected_by_name (sampleEnv [] []) "image/png".toList [137, 80, 78, 71]
    (by decide) (by decide) (by decide) (by decide)

theorem extractByType_ok_iff (env : Env) (file : File) (text : Str) :
    extractByType env file = .ok text ↔
      (file.type = typeText ∧ env.decodeUtf8 file.bytes = text) ∨
      (file.type = typePdf ∧ env.pdf file.bytes = .ok text) ∨
      ((file.type = typeDocx ∨ file.type = typeDoc) ∧ env.mammoth file.bytes = .ok text) := by
  have d1 : typePdf ≠ typeText := by decide
  have d2 : typeDocx ≠ typeText := by decide
  have d3 : typeDoc ≠ typeText := by decide
  have d4 : typeDocx ≠ typePdf := by decide
  have d5 : typeDoc ≠ typePdf := by decide
  unfold extractByType
  by_cases h1 : file.type = typeText
  · simp [h1, d1.symm, d2.symm, d3.symm]
  · by_cases h2 : file.type = typePdf
    · rw [if_neg h1, if_pos h2]
      cases hp : env.pdf file.bytes <;> simp [h2, d1, d4.symm, d5.symm]
    · by_cases h3 : file.type = typeDocx ∨ file.type = typeDoc
      · rw [if_neg h1, if_neg h2, if_pos h3]
        simp [h1, h2, h3]
      · rw [if_neg h1, if_neg h2, if_neg h3]
        simp [h1, h2, h3]

/-- C7: whatever the format, when the text produced by the strategy of the format is
empty or white space only, `extractTextFromFile` fails with the empty-content message;
and a text returned by `extractTextFromFile` has a character that is not white space. -/
theorem extract_never_blank (env : Env) (file : File) (text : Str) :
    (extractByType env file = .ok text → (∀ c ∈ text, isWhiteSpace c = true) →
      extractTextFromFile env file = .error msgNoText) ∧
    (extractTextFromFile env file = .ok text → ∃ c ∈ text, isWhiteSpace c = false) := by
  constructor
  · intro h hall
    have ht : trim text = [] := (trim_eq_nil_iff text).mpr hall
    simp [extractTextFromFile, h, ht]
  · intro h
    unfold extractTextFromFile at h
    cases hx : extractByType env file with
    | error e => simp [hx] at h
    | ok content =>
      simp only [hx] at h
      split_ifs at h with hb
      · simp only [Except.ok.injEq] at h
        subst h
        by_contra hno
        have hall : ∀ c ∈ content, isWhiteSpace c = true := by
          intro c hc
          by_contra hc2
          exact hno ⟨c, hc, by simpa using hc2⟩
        have ht : trim content = [] := (trim_eq_nil_iff content).mpr hall
        simp [ht] at hb

theorem extract_never_blank_witness :
    extractTextFromFile (sampleEnv [] []) blankFile = .error msgNoText ∧
      ∃ c ∈ ['H', 'i'], isWhiteSpace c = false :=
  ⟨(extract_never_blank (sampleEnv [] []) blankFile [' ', '\n']).1 rfl (by decide),
    (extract_never_blank (sampleEnv [] []) hiFile ['H', 'i']).2 rfl⟩

/-! ### `POST` and bad input -/

/-- C3 (as amended): a request whose form has no `file` entry, or has the empty string
as that entry, is answered with status 400; one whose `file` entry is a non-empty text is
answered with status 500; one whose form cannot be read is answered by the catch handler
applied to the message of that failure; and for a file whose declared type is outside the
supported set, `POST` answers with what the catch handler makes of the message
`Unsupported file type: ` followed by the type, which is status 500 and the generic text
when that message contains none of the three patterns. -/
theorem post_bad_input (env : Env) (file : File)
    (h1 : file.type ≠ typeText) (h2 : file.type ≠ typePdf)
    (h3 : file.type ≠ typeDocx) (h4 : file.type ≠ typeDoc) :
    POST env (.ok .absent) = ⟨400, .error msgNoFile⟩ ∧
    POST env (.ok (.text [])) = ⟨400, .error msgNoFile⟩ ∧
    (∀ value, value ≠ [] → POST env (.ok (.text value)) = ⟨500, .error msgInternal⟩) ∧
    (∀ e, POST env (.error e) = handleError e) ∧
    POST env (.ok (.file file)) = handleError (msgUnsupported ++ file.type) ∧
    (includes (msgUnsupported ++ file.type) patRateLimit = false →
      includes (msgUnsupported ++ file.type) patContextExceeded = false →
      includes (msgUnsupported ++ file.type) patMaxContext = false →
      POST env (.ok (.file file)) = ⟨500, .error msgInternal⟩) := by
  have hp : POST env (.ok (.file file)) = handleError (msgUnsupported ++ file.type) := by
    simp [POST, postTry, extractTextFromFile_unsupported env file h1 h2 h3 h4]
  refine ⟨rfl, rfl, ?_, fun e => rfl, hp, ?_⟩
  · intro value hv
    have he : value.isEmpty = false := by
      cases value with
      | nil => exact absurd rfl hv
      | cons c cs => rfl
    have hm : handleError msgNotFunction = ⟨500, .error msgInternal⟩ := rfl
    simp only [POST, postTry, he, Bool.false_eq_true, if_false, hm]
  · intro g1 g2 g3
    rw [hp]
    simp [handleError, g1, g2, g3]

theorem post_bad_input_witness :
    POST (sampleEnv [] []) (.ok .absent) = ⟨400, .error msgNoFile⟩ ∧
    POST (sampleEnv [] []) (.ok (.text [])) = ⟨400, .error msgNoFile⟩ ∧
    POST (sampleEnv [] []) (.ok notesEntry) = ⟨500, .error msgInternal⟩ ∧
    POST (sampleEnv [] []) (.error "Failed to parse body as FormData.".toList) =
      handleError "Failed to parse body as FormData.".toList ∧
    POST (sampleEnv [] []) (.ok (.file pngFile)) =
      handleError (msgUnsupported ++ pngFile.type) ∧
    POST (sampleEnv [] []) (.ok (.file pngFile)) = ⟨500, .error msgInternal⟩ :=
  have h := post_bad_input (sampleEnv [] []) pngFile
    (by decide) (by decide) (by decide) (by decide)
  ⟨h.1, h.2.1, h.2.2.1 _ (by decide), h.2.2.2.1 _, h.2.2.2.2.1,
    h.2.2.2.2.2 (by decide) (by decide) (by decide)⟩

/-- C3 (as stated) fails: a PNG upload makes extraction fail with the unsupported-type
message, a blank text file makes it fail with the empty-content message, and a form whose
`file` field holds the text `notes` carries no file; `POST` answers the three with status
500, not 400. -/
theorem post_bad_file_is_500 :
    extractTextFromFile (sampleEnv [] []) pngFile =
      .error "Unsupported file type: image/png".toList ∧
    (POST (sampleEnv [] []) (.ok (.file pngFile))).status = 500 ∧
    extractTextFromFile (sampleEnv [] []) blankFile = .error msgNoText ∧
    (POST (sampleEnv [] []) (.ok (.file blankFile))).status = 500 ∧
    (POST (sampleEnv [] []) (.ok notesEntry)).status = 500 :=
  ⟨rfl, rfl, rfl, rfl, rfl⟩

/-! ### Validation of the cards -/

theorem truthy_of_absentOrString (v : Option JSValue) (h1 : absentOrString v = true)
    (h2 : absentOrEmpty v = false) : truthy v = true := by
  cases v with
  | none => simp [absentOrEmpty] at h2
  | some x =>
    cases x <;> simp_all [absentOrString, absentOrEmpty, truthy]

theorem truthy_of_absentOrEmpty (v : Option JSValue) (h : absentOrEmpty v = true) :
    truthy v = false := by
  cases v with
  | none => rfl
  | some x =>
    cases x <;> simp_all [absentOrEmpty, truthy]

theorem checkCards_step_of_good (card : JSValue) (rest : List JSValue) (k : Nat)
    (h1 : isTextCard card = true) (h2 : lacksField card = false) :
    checkCards (card :: rest) k = checkCards rest (k + 1) := by
  cases card with
  | obj props =>
    simp only [isTextCard, Bool.and_eq_true] at h1
    simp only [lacksField, Bool.or_eq_false_iff] at h2
    have tq := truthy_of_absentOrString _ h1.1 h2.1
    have ta := truthy_of_absentOrString _ h1.2 h2.2
    simp [checkCards, getProp, tq, ta]
  | _ => simp [isTextCard] at h1

theorem checkCards_of_bad (card : JSValue) (rest : List JSValue) (k : Nat)
    (h1 : isTextCard card = true) (h2 : lacksField card = true) :
    checkCards (card :: rest) k = .error (missingMsg k) := by
  cases card with
  | obj props =>
    simp only [isTextCard, Bool.and_eq_true] at h1
    simp only [lacksField, Bool.or_eq_true] at h2
    by_cases hq : absentOrEmpty (props.lookup keyQuestion) = true
    · have tq := truthy_of_absentOrEmpty _ hq
      simp [checkCards, getProp, tq]
    · have hq2 : absentOrEmpty (props.lookup keyQuestion) = false := by simpa using hq
      have tq := truthy_of_absentOrString _ h1.1 hq2
      have ha : absentOrEmpty (props.lookup keyAnswer) = true := by
        rcases h2 with h | h
        · exact absurd h hq
        · exact h
      have ta := truthy_of_absentOrEmpty _ ha
      simp [checkCards, getProp, tq, ta]
  | _ => simp [isTextCard] at h1

theorem checkCards_first_bad (pre post : List JSValue) (bad : JSValue) (k : Nat)
    (htext : ∀ c ∈ pre ++ bad :: post, isTextCard c = true)
    (hpre : ∀ c ∈ pre, lacksField c = false) (hbad : lacksField bad = true) :
    checkCards (pre ++ bad :: post) k = .error (missingMsg (k + pre.length)) := by
  induction pre generalizing k with
  | nil =>
    simpa using checkCards_of_bad bad post k (htext bad (by simp)) hbad
  | cons c cs ih =>
    have hc : isTextCard c = true := htext c (by simp)
    have hstep := checkCards_step_of_good c (cs ++ bad :: post) k hc (hpre c (by simp))
    rw [List.cons_append, hstep]
    rw [ih (k + 1) (fun x hx => htext x (by simp at hx ⊢; tauto))
      (fun x hx => hpre x (by simp [hx]))]
    congr 2
    simp only [List.length_cons]
    omega

theorem parseResponse_of_parse_error (env : Env) (reply e : Str)
    (h : env.jsonParse (cleanContent reply) = .error e) :
    parseResponse env reply = .error (msgParse ++ e) := by
  simp [parseResponse, parseCards, h]

/-- The fail-fast check of lines 95 to 99, on the value `JSON.parse` returns at line 88:
when that value is an array of objects whose `question` and `answer`, where present, are
strings, and `bad` is the first element that lacks one of the two or has it empty, the
parse/validate step fails: it returns no card, and its message is `Failed to parse
flashcards: Flashcard at index `, the decimal numeral of the zero-based index of `bad`,
and ` is missing question or answer`. -/
theorem validation_fails_fast (env : Env) (reply : Str) (pre post : List JSValue)
    (bad : JSValue)
    (hp : env.jsonParse (cleanContent reply) = .ok (.arr (pre ++ bad :: post)))
    (htext : ∀ c ∈ pre ++ bad :: post, isTextCard c = true)
    (hpre : ∀ c ∈ pre, lacksField c = false) (hbad : lacksField bad = true) :
    parseResponse env reply =
      .error ("Failed to parse flashcards: Flashcard at index ".toList ++
        (Nat.repr pre.length).toList ++ " is missing question or answer".toList) := by
  have h := checkCards_first_bad pre post bad 0 htext hpre hbad
  simp only [Nat.zero_add] at h
  have e : msgParse ++ missingMsg pre.length =
      "Failed to parse flashcards: Flashcard at index ".toList ++
        (Nat.repr pre.length).toList ++ " is missing question or answer".toList := by
    simp [msgParse, missingMsg]
  rw [← e]
  simp [parseResponse, parseCards, hp, h]

theorem validation_fails_fast_witness :
    parseResponse (sampleEnv [] [(twoCardsText, .arr [cardOne, cardTwo])]) twoCardsText =
      .error "Failed to parse flashcards: Flashcard at index 1 is missing question or answer".toList :=
  validation_fails_fast (sampleEnv [] [(twoCardsText, .arr [cardOne, cardTwo])]) twoCardsText
    [cardOne] [] cardTwo rfl (by decide) (by decide) (by decide)

/-- C1: the output `[{"question":"What is ```x```?","answer":""}]` is already trimmed and
is valid JSON for an array of one object whose fields are strings and whose answer is
empty, so the claim asks for a failure that names index 0; the text handed to
`JSON.parse` is `x`, and the message of the failure is the diagnostic of the parser for
`x`, which names no index. -/
theorem fail_fast_index_lost :
    trim ticksEmptyAnswerText = ticksEmptyAnswerText ∧
    (sampleEnv [] [(ticksEmptyAnswerText, .arr [ticksEmptyAnswerCard])]).jsonParse
      (trim ticksEmptyAnswerText) = .ok (.arr [ticksEmptyAnswerCard]) ∧
    isTextCard ticksEmptyAnswerCard = true ∧
    lacksField ticksEmptyAnswerCard = true ∧
    cleanContent ticksEmptyAnswerText = ['x'] ∧
    (sampleEnv [] [(ticksEmptyAnswerText, .arr [ticksEmptyAnswerCard])]).jsonParse ['x'] =
      .error "Unexpected token".toList ∧
    parseResponse (sampleEnv [] [(ticksEmptyAnswerText, .arr [ticksEmptyAnswerCard])])
      ticksEmptyAnswerText = .error "Failed to parse flashcards: Unexpected token".toList ∧
    includes "Failed to parse flashcards: Unexpected token".toList "index".toList = false :=
  ⟨rfl, rfl, rfl, rfl, rfl, rfl, rfl, rfl⟩

theorem checkCards_ok_of_forall (cards : List JSValue) (k : Nat)
    (h : ∀ c ∈ cards, passesCheck c = true) : checkCards cards k = .ok () := by
  induction cards generalizing k with
  | nil => rfl
  | cons c cs ih =>
    have hc := h c (by simp)
    have hrest := ih (k + 1) (fun x hx => h x (by simp [hx]))
    unfold passesCheck at hc
    unfold checkCards
    cases hq : getProp c keyQuestion with
    | error e => simp [hq] at hc
    | ok q =>
      cases ha : getProp c keyAnswer with
      | error e => simp [hq, ha] at hc
      | ok a =>
        simp only [hq, ha, Bool.and_eq_true] at hc
        simp [hc.1, hc.2, hrest]

theorem forall_of_checkCards_ok (cards : List JSValue) (k : Nat)
    (h : checkCards cards k = .ok ()) : ∀ c ∈ cards, passesCheck c = true := by
  induction cards generalizing k with
  | nil => simp
  | cons c cs ih =>
    intro x hx
    unfold checkCards at h
    cases hq : getProp c keyQuestion with
    | error e => simp [hq] at h
    | ok q =>
      simp only [hq] at h
      by_cases tq : truthy q = true
      · cases ha : getProp c keyAnswer with
        | error e => simp [tq, ha] at h
        | ok a =>
          simp only [ha] at h
          by_cases ta : truthy a = true
          · simp only [tq, ta, Bool.not_true, Bool.false_eq_true, if_false] at h
            rcases List.mem_cons.mp hx with rfl | hx
            · simp [passesCheck, hq, ha, tq, ta]
            · exact ih (k + 1) h x hx
          · simp [tq, ta] at h
      · simp [tq] at h

theorem parseCards_ok_iff (env : Env) (text : Str) (cards : List JSValue) :
    parseCards env text = .ok cards ↔
      env.jsonParse text = .ok (.arr cards) ∧ ∀ c ∈ cards, passesCheck c = true := by
  unfold parseCards
  cases hp : env.jsonParse text with
  | error e => simp
  | ok v =>
    cases v with
    | arr items =>
      cases hc : checkCards items 0 with
      | error e =>
        simp only [hc, Except.ok.injEq, JSValue.arr.injEq, reduceCtorEq, false_iff, not_and]
        intro he hall
        subst he
        rw [checkCards_ok_of_forall items 0 hall] at hc
        cases hc
      | ok u =>
        have hall := forall_of_checkCards_ok items 0 hc
        simp only [hc, Except.ok.injEq, JSValue.arr.injEq]
        constructor
        · intro he
          subst he
          exact ⟨rfl, hall⟩
        · intro he
          exact he.1
    | _ => simp

theorem parseResponse_ok_iff (env : Env) (reply : Str) (cards : List JSValue) :
    parseResponse env reply = .ok cards ↔
      env.jsonParse (cleanContent reply) = .ok (.arr cards) ∧
        ∀ c ∈ cards, passesCheck c = true := by
  rw [← parseCards_ok_iff]
  unfold parseResponse
  cases parseCards env (cleanContent reply) <;> simp

theorem passesCheck_iff (card : JSValue) :
    passesCheck card = true ↔
      ∃ props q a, card = .obj props ∧ props.lookup keyQuestion = some q ∧
        props.lookup keyAnswer = some a ∧ truthy (some q) = true ∧ truthy (some a) = true := by
  constructor
  · intro h
    cases card with
    | obj props =>
      cases hq : props.lookup keyQuestion with
      | none => simp [passesCheck, getProp, hq, truthy] at h
      | some q =>
        cases ha : props.lookup keyAnswer with
        | none => simp [passesCheck, getProp, ha, truthy] at h
        | some a =>
          simp only [passesCheck, getProp, hq, ha, Bool.and_eq_true] at h
          exact ⟨props, q, a, rfl, hq, ha, h.1, h.2⟩
    | _ => simp [passesCheck, getProp, truthy] at h
  · rintro ⟨props, q, a, e, hq, ha, tq, ta⟩
    subst e
    simp [passesCheck, getProp, hq, ha, tq, ta]

/-- C2 (as amended): whenever the parse/validate step succeeds, every returned element is
an object that has a `question` and an `answer`, both truthy (not `null`, `false`, zero
or the empty string); so each of the two that is a string is non-empty. -/
theorem returned_cards_truthy (env : Env) (reply : Str) (cards : List JSValue)
    (h : parseResponse env reply = .ok cards) :
    ∀ c ∈ cards, ∃ props q a, c = .obj props ∧ props.lookup keyQuestion = some q ∧
      props.lookup keyAnswer = some a ∧ truthy (some q) = true ∧ truthy (some a) = true ∧
      (∀ s, q = .str s → s ≠ []) ∧ (∀ s, a = .str s → s ≠ []) := by
  intro c hc
  have hpass := ((parseResponse_ok_iff env reply cards).mp h).2 c hc
  obtain ⟨props, q, a, e, hq, ha, tq, ta⟩ := (passesCheck_iff c).mp hpass
  refine ⟨props, q, a, e, hq, ha, tq, ta, ?_, ?_⟩
  · intro s hs hnil
    subst hs hnil
    simp [truthy] at tq
  · intro s hs hnil
    subst hs hnil
    simp [truthy] at ta

theorem returned_cards_truthy_witness :
    ∃ props q a, cardQA = .obj props ∧ props.lookup keyQuestion = some q ∧
      props.lookup keyAnswer = some a ∧ truthy (some q) = true ∧ truthy (some a) = true ∧
      (∀ s, q = .str s → s ≠ []) ∧ (∀ s, a = .str s → s ≠ []) :=
  returned_cards_truthy (sampleEnv [] [(oneCardText, .arr [cardQA])]) oneCardText [cardQA] rfl
    cardQA (List.mem_singleton.mpr rfl)

/-- C2 (as stated) fails: for the output `[{"question":1,"answer":true}]` the
parse/validate step succeeds and returns the card, whose question is a number and whose
answer is a boolean. -/
theorem returned_card_not_string :
    parseResponse (sampleEnv [] [(untypedText, .arr [untypedCard])]) untypedText =
      .ok [untypedCard] ∧
    getProp untypedCard keyQuestion = .ok (some (.num (.finite 1 0))) ∧
    getProp untypedCard keyAnswer = .ok (some (.bool true)) ∧
    nonEmptyString (some (.num (.finite 1 0))) = false ∧
    nonEmptyString (some (.bool true)) = false :=
  ⟨rfl, rfl, rfl, rfl, rfl⟩

/-! ### `POST` on success -/

theorem extractTextFromFile_nonempty (env : Env) (file : File) (content : Str)
    (h : extractTextFromFile env file = .ok content) : content.isEmpty = false := by
  unfold extractTextFromFile at h
  cases hx : extractByType env file with
  | error e => simp [hx] at h
  | ok text =>
    simp only [hx] at h
    split_ifs at h with hb
    simp only [Except.ok.injEq] at h
    subst h
    simp only [Bool.or_eq_true, not_or] at hb
    simpa using hb.1

theorem serializeList_eq_map (vs : List JSValue) : serializeList vs = vs.map serialize := by
  induction vs with
  | nil => rfl
  | cons v vs ih => simp [serializeList, ih]

mutual
theorem serialize_of_writable : ∀ v : JSValue, writable v = true → serialize v = v
  | .null, _ => rfl
  | .bool _, _ => rfl
  | .num (.finite _ _), _ => rfl
  | .num .negZero, h => by simp [writable] at h
  | .num (.infinity _), h => by simp [writable] at h
  | .str _, _ => rfl
  | .arr items, h => by
    simp only [writable] at h
    simp only [serialize, serializeList_of_writable items h]
  | .obj props, h => by
    simp only [writable] at h
    simp only [serialize, serializeProps_of_writable props h]
theorem serializeList_of_writable :
    ∀ vs : List JSValue, writableList vs = true → serializeList vs = vs
  | [], _ => rfl
  | v :: vs, h => by
    simp only [writableList, Bool.and_eq_true] at h
    simp only [serializeList, serialize_of_writable v h.1, serializeList_of_writable vs h.2]
theorem serializeProps_of_writable :
    ∀ ps : List (Str × JSValue), writableProps ps = true → serializeProps ps = ps
  | [], _ => rfl
  | (k, v) :: ps, h => by
    simp only [writableProps, Bool.and_eq_true] at h
    simp only [serializeProps, serialize_of_writable v h.1,
      serializeProps_of_writable ps h.2]
end

theorem writableList_iff (vs : List JSValue) :
    writableList vs = true ↔ ∀ v ∈ vs, writable v = true := by
  induction vs with
  | nil => simp [writableList]
  | cons v vs ih => simp [writableList, ih]

/-- C9 (as amended): when the file extracts to a text, the backend answers, and the text
handed to `JSON.parse` parses as an array of cards that all pass the check, `POST`
answers with status 200, with `totalChunks` and `processedChunks` both 1, and with
`flashcards` holding, element by element and in the same order, what `JSON.stringify`
writes for the elements of the parsed array; when no element holds an infinity or a
negative zero, `flashcards` is equal to the parsed array. -/
theorem post_success (env : Env) (file : File) (content reply : Str)
    (cards : List JSValue)
    (hx : extractTextFromFile env file = .ok content)
    (hc : env.chat (buildPrompt content) = .ok reply)
    (hp : env.jsonParse (cleanContent reply) = .ok (.arr cards))
    (hv : ∀ c ∈ cards, passesCheck c = true) :
    POST env (.ok (.file file)) = ⟨200, .cards (cards.map serialize) 1 1⟩ ∧
    (cards.map serialize).length = cards.length ∧
    (∀ i : Nat, (cards.map serialize)[i]? = (cards[i]?).map serialize) ∧
    ((∀ c ∈ cards, writable c = true) →
      POST env (.ok (.file file)) = ⟨200, .cards cards 1 1⟩) := by
  have hne := extractTextFromFile_nonempty env file content hx
  have hr : parseResponse env reply = .ok cards :=
    (parseResponse_ok_iff env reply cards).mpr ⟨hp, hv⟩
  have hpost : POST env (.ok (.file file)) = ⟨200, .cards (cards.map serialize) 1 1⟩ := by
    simp [POST, postTry, hx, hne, generateFlashcards, hc, hr, serializeList_eq_map]
  refine ⟨hpost, List.length_map _ _, fun i => List.getElem?_map _ _ _, ?_⟩
  intro hw
  rw [hpost, ← serializeList_eq_map,
    serializeList_of_writable cards ((writableList_iff cards).mpr hw)]

theorem post_success_witness :
    POST (sampleEnv orderedText [(orderedText, .arr [cardB, cardA])]) (.ok (.file hiFile)) =
      ⟨200, .cards [cardB, cardA] 1 1⟩ :=
  (post_success (sampleEnv orderedText [(orderedText, .arr [cardB, cardA])]) hiFile
    ['H', 'i'] orderedText [cardB, cardA] rfl rfl rfl (by decide)).2.2.2 (by decide)

/-- C9 (as stated) fails: for the output `[{"question":1e999,"answer":[]}]` the parsed
card has the question `Infinity` and passes the check, and the card in the body of the
200 response has the question `null`: `flashcards` is not equal to the parsed array. -/
theorem post_success_body_differs :
    (sampleEnv overflowText [(overflowText, .arr [overflowCard])]).jsonParse
      (cleanContent overflowText) = .ok (.arr [overflowCard]) ∧
    passesCheck overflowCard = true ∧
    POST (sampleEnv overflowText [(overflowText, .arr [overflowCard])])
      (.ok (.file hiFile)) = ⟨200, .cards [overflowCardWritten] 1 1⟩ ∧
    [overflowCardWritten] ≠ [overflowCard] :=
  ⟨rfl, rfl, rfl, by simp [overflowCardWritten, overflowCard]⟩

/-! ### The regular expression: where it matches -/

theorem dropLit_eq_some_iff (p s r : Str) : dropLit p s = some r ↔ s = p ++ r := by
  induction p generalizing s with
  | nil => simp [dropLit, eq_comm]
  | cons c cs ih =>
    cases s with
    | nil => simp [dropLit]
    | cons x xs =>
      by_cases h : c = x
      · subst h
        simp [dropLit, ih]
      · simp [dropLit, h]
        intro hx
        exact absurd hx.symm h

theorem includes_iff (s p : Str) : includes s p = true ↔ ∃ a c, s = a ++ p ++ c := by
  induction s with
  | nil =>
    simp only [includes, Option.isSome_iff_exists, dropLit_eq_some_iff]
    constructor
    · rintro ⟨r, hr⟩
      exact ⟨[], r, by simpa using hr⟩
    · rintro ⟨a, c, h⟩
      have h' := h.symm
      simp only [List.append_eq_nil] at h'
      exact ⟨[], by simp [h'.1.2]⟩
  | cons x xs ih =>
    simp only [includes, Bool.or_eq_true, Option.isSome_iff_exists, dropLit_eq_some_iff, ih]
    constructor
    · rintro (⟨r, hr⟩ | ⟨a, c, h⟩)
      · exact ⟨[], r, by simpa using hr⟩
      · exact ⟨x :: a, c, by simp [h]⟩
    · rintro ⟨a, c, h⟩
      cases a with
      | nil => exact Or.inl ⟨c, by simpa using h⟩
      | cons y ys =>
        simp only [List.cons_append, List.cons.injEq] at h
        exact Or.inr ⟨ys, c, h.2⟩

theorem wsStar_eq_some {α : Type} (k : Str → Option α) (s : Str) (r : α)
    (h : wsStar k s = some r) : ∃ w rest, s = w ++ rest ∧ k rest = some r := by
  induction s with
  | nil => exact ⟨[], [], rfl, h⟩
  | cons c cs ih =>
    unfold wsStar at h
    split_ifs at h with hc
    · cases hw : wsStar k cs with
      | some r' =>
        simp only [hw, Option.some.injEq] at h
        subst h
        obtain ⟨w, rest, e, hk⟩ := ih hw
        exact ⟨c :: w, rest, by simp [e], hk⟩
      | none =>
        simp only [hw] at h
        exact ⟨[], c :: cs, rfl, h⟩
    · exact ⟨[], c :: cs, rfl, h⟩

theorem wsStar_isSome {α : Type} (k : Str → Option α) (s : Str) (h : (k s).isSome = true) :
    (wsStar k s).isSome = true := by
  cases s with
  | nil => exact h
  | cons c cs =>
    unfold wsStar
    split_ifs
    · cases wsStar k cs with
      | some r => rfl
      | none => exact h
    · exact h

theorem lazyCapture_eq_some (k : Str → Option Str) (acc s cap : Str)
    (h : lazyCapture k acc s = some cap) :
    ∃ u rest, s = u ++ rest ∧ cap = acc ++ u ∧ (k rest).isSome = true := by
  induction s generalizing acc with
  | nil =>
    unfold lazyCapture at h
    cases hk : k [] with
    | none => simp [hk] at h
    | some x =>
      simp only [hk, Option.map_some', Option.some.injEq] at h
      exact ⟨[], [], rfl, by simp [h], by simp [hk]⟩
  | cons c cs ih =>
    unfold lazyCapture at h
    cases hk : k (c :: cs) with
    | some x =>
      simp only [hk, Option.some.injEq] at h
      exact ⟨[], c :: cs, rfl, by simp [h], by simp [hk]⟩
    | none =>
      simp only [hk] at h
      obtain ⟨u, rest, e, hcap, hr⟩ := ih (acc ++ [c]) h
      exact ⟨c :: u, rest, by simp [e], by simp [hcap], hr⟩

theorem lazyCapture_isSome (k : Str → Option Str) (acc u v : Str)
    (h : (k v).isSome = true) : (lazyCapture k acc (u ++ v)).isSome = true := by
  induction u generalizing acc with
  | nil =>
    cases v with
    | nil =>
      simp only [List.append_nil, lazyCapture, Option.isSome_map']
      exact h
    | cons c cs =>
      simp only [List.nil_append, lazyCapture]
      cases hk : k (c :: cs) with
      | some x => rfl
      | none => simp [hk] at h
  | cons x xs ih =>
    simp only [List.cons_append, lazyCapture]
    cases k (x :: (xs ++ v)) with
    | some y => rfl
    | none => exact ih (acc ++ [x])

theorem afterTag_eq_some (s cap : Str) (h : afterTag s = some cap) :
    ∃ w w' c, s = w ++ cap ++ w' ++ fence ++ c := by
  unfold afterTag at h
  obtain ⟨w, rest, e, hk⟩ := wsStar_eq_some _ s cap h
  obtain ⟨u, rest', e', hcap, hr⟩ := lazyCapture_eq_some _ [] rest cap hk
  obtain ⟨x, hx⟩ := Option.isSome_iff_exists.mp hr
  obtain ⟨w', rest'', e'', hd⟩ := wsStar_eq_some _ rest' x hx
  have hf := (dropLit_eq_some_iff fence rest'' x).mp hd
  simp only [List.nil_append] at hcap
  subst hcap
  exact ⟨w, w', x, by simp [e, e', e'', hf]⟩

theorem afterTag_isSome (u c : Str) : (afterTag (u ++ fence ++ c)).isSome = true := by
  unfold afterTag
  apply wsStar_isSome
  rw [List.append_assoc]
  apply lazyCapture_isSome
  apply wsStar_isSome
  simp [dropLit_self_append]

theorem matchHere_eq_some (s cap : Str) (h : matchHere s = some cap) :
    ∃ m w' c, s = fence ++ m ++ cap ++ w' ++ fence ++ c := by
  unfold matchHere at h
  cases hd : dropLit fence s with
  | none => simp [hd] at h
  | some s1 =>
    have hs := (dropLit_eq_some_iff fence s s1).mp hd
    simp only [hd] at h
    cases ht : dropLit tagJson s1 with
    | none =>
      simp only [ht] at h
      obtain ⟨w, w', c, e⟩ := afterTag_eq_some s1 cap h
      exact ⟨w, w', c, by simp [hs, e]⟩
    | some s2 =>
      simp only [ht] at h
      have hs2 := (dropLit_eq_some_iff tagJson s1 s2).mp ht
      cases ha : afterTag s2 with
      | some cap' =>
        simp only [ha, Option.some.injEq] at h
        subst h
        obtain ⟨w, w', c, e⟩ := afterTag_eq_some s2 cap' ha
        exact ⟨tagJson ++ w, w', c, by simp [hs, hs2, e]⟩
      | none =>
        simp only [ha] at h
        obtain ⟨w, w', c, e⟩ := afterTag_eq_some s1 cap h
        exact ⟨w, w', c, by simp [hs, e]⟩

theorem matchHere_isSome (b c : Str) :
    (matchHere (fence ++ b ++ fence ++ c)).isSome = true := by
  unfold matchHere
  have hd : dropLit fence (fence ++ b ++ fence ++ c) = some (b ++ fence ++ c) := by
    rw [List.append_assoc, List.append_assoc, dropLit_self_append]
    simp
  simp only [hd]
  have ha := afterTag_isSome b c
  cases (match dropLit tagJson (b ++ fence ++ c) with
    | some s2 => afterTag s2
    | none => none) with
  | some cap => rfl
  | none => exact ha

theorem regexMatch_eq_some (s cap : Str) (h : regexMatch s = some cap) :
    ∃ a m w' c, s = a ++ fence ++ m ++ cap ++ w' ++ fence ++ c := by
  induction s with
  | nil =>
    obtain ⟨m, w', c, e⟩ := matchHere_eq_some [] cap h
    exact ⟨[], m, w', c, by simpa using e⟩
  | cons x xs ih =>
    unfold regexMatch at h
    cases hm : matchHere (x :: xs) with
    | some cap' =>
      simp only [hm, Option.some.injEq] at h
      subst h
      obtain ⟨m, w', c, e⟩ := matchHere_eq_some (x :: xs) cap' hm
      exact ⟨[], m, w', c, by simpa using e⟩
    | none =>
      simp only [hm] at h
      obtain ⟨a, m, w', c, e⟩ := ih h
      exact ⟨x :: a, m, w', c, by simp [e]⟩

theorem regexMatch_isSome_of_matchHere (s : Str) (h : (matchHere s).isSome = true) :
    (regexMatch s).isSome = true := by
  cases s with
  | nil => exact h
  | cons x xs =>
    unfold regexMatch
    cases hx : matchHere (x :: xs) with
    | some cap => rfl
    | none => simp [hx] at h

theorem regexMatch_isSome (a b c : Str) :
    (regexMatch (a ++ fence ++ b ++ fence ++ c)).isSome = true := by
  induction a with
  | nil =>
    rw [List.nil_append]
    exact regexMatch_isSome_of_matchHere _ (matchHere_isSome b c)
  | cons x xs ih =>
    simp only [List.cons_append]
    unfold regexMatch
    cases matchHere (x :: (xs ++ fence ++ b ++ fence ++ c)) with
    | some cap => rfl
    | none => simpa using ih

theorem regexMatch_eq_none_iff (s : Str) :
    regexMatch s = none ↔ ¬ ∃ a b c, s = a ++ fence ++ b ++ fence ++ c := by
  constructor
  · rintro h ⟨a, b, c, e⟩
    have := regexMatch_isSome a b c
    rw [← e, h] at this
    simp at this
  · intro h
    cases hr : regexMatch s with
    | none => rfl
    | some cap =>
      obtain ⟨a, m, w', c, e⟩ := regexMatch_eq_some s cap hr
      exact absurd ⟨a, m ++ cap ++ w', c, by simp [e]⟩ h

/-! ### Fence stripping -/

theorem cleanContent_of_none (reply : Str) (h : regexMatch (trim reply) = none) :
    cleanContent reply = trim reply := by
  simp [cleanContent, h]

theorem cleanContent_ne_of_some (reply cap : Str) (h : regexMatch (trim reply) = some cap) :
    cleanContent reply ≠ trim reply := by
  obtain ⟨a, m, w', c, e⟩ := regexMatch_eq_some _ cap h
  have hc : cleanContent reply = cap := by simp [cleanContent, h]
  rw [hc]
  intro hcap
  have hl := congrArg List.length e
  rw [← hcap] at hl
  simp only [List.length_append, fence, List.length_cons, List.length_nil] at hl
  omega

/-- Where the pattern of line 82 leaves the reply alone: the text handed to `JSON.parse`
is the trimmed output unchanged exactly when the trimmed output does not contain a fence
marker followed, later on, by a second one; and then an output whose trimmed text parses
as an array of cards that all pass the check is accepted and returned as that array. -/
theorem fence_stripping_iff (env : Env) (reply : Str) :
    (cleanContent reply = trim reply ↔
      ¬ ∃ a b c, trim reply = a ++ fence ++ b ++ fence ++ c) ∧
    ((¬ ∃ a b c, trim reply = a ++ fence ++ b ++ fence ++ c) →
      ∀ cards, env.jsonParse (trim reply) = .ok (.arr cards) →
        (∀ c ∈ cards, passesCheck c = true) → parseResponse env reply = .ok cards) := by
  constructor
  · rw [← regexMatch_eq_none_iff]
    constructor
    · intro h
      cases hr : regexMatch (trim reply) with
      | none => rfl
      | some cap => exact absurd h (cleanContent_ne_of_some reply cap hr)
    · exact cleanContent_of_none reply
  · intro h cards hp hv
    have hn := (regexMatch_eq_none_iff (trim reply)).mpr h
    rw [parseResponse_ok_iff, cleanContent_of_none reply hn]
    exact ⟨hp, hv⟩

theorem fence_stripping_iff_witness :
    parseResponse (sampleEnv [] [(oneCardText, .arr [cardQA])]) paddedOneCardText =
      .ok [cardQA] :=
  (fence_stripping_iff (sampleEnv [] [(oneCardText, .arr [cardQA])]) paddedOneCardText).2
    ((regexMatch_eq_none_iff (trim paddedOneCardText)).mp rfl) [cardQA] rfl (by decide)

/-- C10: the output `[{"question":"What is ```x```?","answer":"Code"}]` is already
trimmed, does not start with a fence marker, so it is not wrapped in a fenced block, and
is valid JSON for an array of one card that passes the check; the claim, like the comment
of line 81, asks for it to be parsed as it is and accepted. The text handed to
`JSON.parse` is `x`, and the parse/validate step fails. -/
theorem unfenced_output_is_rewritten :
    trim ticksInsideText = ticksInsideText ∧
    dropLit fence (trim ticksInsideText) = none ∧
    cleanContent ticksInsideText = ['x'] ∧
    cleanContent ticksInsideText ≠ trim ticksInsideText ∧
    (sampleEnv [] [(ticksInsideText, .arr [ticksInsideCard])]).jsonParse
      (trim ticksInsideText) = .ok (.arr [ticksInsideCard]) ∧
    passesCheck ticksInsideCard = true ∧
    ∃ e, parseResponse (sampleEnv [] [(ticksInsideText, .arr [ticksInsideCard])])
      ticksInsideText = .error e :=
  ⟨rfl, rfl, rfl, by decide, rfl, rfl, _, rfl⟩

/-! ### Fenced and unfenced outputs -/

theorem trimStart_eq_self (s : Str) (h : ∀ c, s.head? = some c → isWhiteSpace c = false) :
    trimStart s = s := by
  cases s with
  | nil => rfl
  | cons x xs =>
    have hx := h x rfl
    simp [trimStart, List.dropWhile, hx]

theorem trim_eq_self (s : Str) (h1 : ∀ c, s.head? = some c → isWhiteSpace c = false)
    (h2 : ∀ c, s.getLast? = some c → isWhiteSpace c = false) : trim s = s := by
  unfold trim
  rw [trimStart_eq_self s h1]
  unfold trimEnd
  have h := trimStart_eq_self s.reverse (by simpa using h2)
  unfold trimStart at h
  rw [h, List.reverse_reverse]

theorem tick_not_whiteSpace : isWhiteSpace tick = false := by decide

theorem dropLit_fence_closing (t : Str) (h : includes t fence = false) :
    dropLit fence (t ++ '\n' :: fence) = none := by
  cases hd : dropLit fence (t ++ '\n' :: fence) with
  | none => rfl
  | some r =>
    exfalso
    have e := (dropLit_eq_some_iff _ _ _).mp hd
    have hnl : '\n' ≠ tick := by decide
    match t, h, e with
    | [], _, e =>
      simp only [fence, List.nil_append, List.cons_append, List.cons.injEq] at e
      exact hnl e.1
    | [a], _, e =>
      simp only [fence, List.nil_append, List.cons_append, List.cons.injEq] at e
      exact hnl e.2.1
    | [a, b], _, e =>
      simp only [fence, List.nil_append, List.cons_append, List.cons.injEq] at e
      exact hnl e.2.2.1
    | a :: b :: c :: rest, h, e =>
      simp only [fence, List.nil_append, List.cons_append, List.cons.injEq] at e
      have hi : includes (a :: b :: c :: rest) fence = true :=
        (includes_iff _ _).mpr ⟨[], rest, by simp [fence, e.1, e.2.1, e.2.2.1]⟩
      rw [h] at hi
      cases hi

theorem includes_tail_false (c : Char) (t p : Str) (h : includes (c :: t) p = false) :
    includes t p = false := by
  simp only [includes, Bool.or_eq_false_iff] at h
  exact h.2

theorem closing_none (t : Str) (hne : t ≠ [])
    (hlast : ∀ c, t.getLast? = some c → isWhiteSpace c = false)
    (hno : includes t fence = false) :
    wsStar (dropLit fence) (t ++ '\n' :: fence) = none := by
  induction t with
  | nil => exact absurd rfl hne
  | cons x xs ih =>
    have hd := dropLit_fence_closing (x :: xs) hno
    simp only [List.cons_append] at hd ⊢
    unfold wsStar
    split_ifs with hx
    · cases xs with
      | nil =>
        have := hlast x rfl
        rw [hx] at this
        cases this
      | cons y ys =>
        rw [ih (by simp) (by simpa using hlast) (includes_tail_false x _ _ hno)]
        exact hd
    · exact hd

theorem closing_some : wsStar (dropLit fence) ('\n' :: fence) = some [] := by rfl

theorem lazyCapture_closing (acc t : Str)
    (hlast : ∀ c, t.getLast? = some c → isWhiteSpace c = false)
    (hno : includes t fence = false) :
    lazyCapture (fun s2 => wsStar (dropLit fence) s2) acc (t ++ '\n' :: fence) =
      some (acc ++ t) := by
  induction t generalizing acc with
  | nil =>
    simp only [List.nil_append, List.append_nil]
    unfold lazyCapture
    simp only [closing_some]
  | cons x xs ih =>
    have hc := closing_none (x :: xs) (by simp) hlast hno
    simp only [List.cons_append] at hc ⊢
    unfold lazyCapture
    simp only [hc]
    have hlast' : ∀ c, xs.getLast? = some c → isWhiteSpace c = false := by
      cases xs with
      | nil => simp
      | cons y ys => simpa using hlast
    rw [ih (acc ++ [x]) hlast' (includes_tail_false x _ _ hno)]
    simp

theorem afterTag_newline (s : Str)
    (hhead : ∀ c, s.head? = some c → isWhiteSpace c = false)
    (hlast : ∀ c, s.getLast? = some c → isWhiteSpace c = false)
    (hno : includes s fence = false) :
    afterTag ('\n' :: (s ++ '\n' :: fence)) = some s := by
  cases s with
  | nil => rfl
  | cons x xs =>
    have hx := hhead x rfl
    have hl := lazyCapture_closing [] (x :: xs) hlast hno
    simp only [List.nil_append, List.cons_append] at hl
    have hnl : isWhiteSpace '\n' = true := by decide
    unfold afterTag
    simp only [List.cons_append]
    unfold wsStar
    simp only [hnl, if_true]
    unfold wsStar
    simp only [hx, Bool.false_eq_true, if_false, hl]

theorem matchHere_fenced (s : Str)
    (hhead : ∀ c, s.head? = some c → isWhiteSpace c = false)
    (hlast : ∀ c, s.getLast? = some c → isWhiteSpace c = false)
    (hno : includes s fence = false) :
    matchHere (fence ++ '\n' :: (s ++ '\n' :: fence)) = some s ∧
    matchHere (fence ++ tagJson ++ '\n' :: (s ++ '\n' :: fence)) = some s := by
  have ha := afterTag_newline s hhead hlast hno
  constructor
  · unfold matchHere
    rw [dropLit_self_append]
    have ht : dropLit tagJson ('\n' :: (s ++ '\n' :: fence)) = none := by
      simp [tagJson, dropLit]
    simp only [ht, ha]
  · have hd : dropLit fence (fence ++ tagJson ++ '\n' :: (s ++ '\n' :: fence)) =
        some (tagJson ++ '\n' :: (s ++ '\n' :: fence)) := by
      rw [List.append_assoc, dropLit_self_append]
    unfold matchHere
    simp only [hd, dropLit_self_append, ha]

theorem regexMatch_of_matchHere (s cap : Str) (h : matchHere s = some cap) :
    regexMatch s = some cap := by
  cases s with
  | nil => exact h
  | cons x xs =>
    unfold regexMatch
    simp only [h]

theorem getLast?_fenced (a s : Str) :
    (a ++ '\n' :: (s ++ '\n' :: fence)).getLast? = some tick := by
  have e : a ++ '\n' :: (s ++ '\n' :: fence) = (a ++ '\n' :: (s ++ ['\n', tick, tick])) ++ [tick] := by
    simp [fence]
  rw [e, List.getLast?_concat]

/-- C5: for a text `s` that has no white space at either end and contains no fence
marker, the output made of an opening fence (plain, or tagged `json`), a line feed, `s`,
a line feed and a closing fence hands exactly `s` to `JSON.parse`, as the output `s`
itself does; so the parse/validate step gives the same result on the three. -/
theorem fenced_parses_as_unfenced (env : Env) (s : Str)
    (hhead : ∀ c, s.head? = some c → isWhiteSpace c = false)
    (hlast : ∀ c, s.getLast? = some c → isWhiteSpace c = false)
    (hno : includes s fence = false) :
    cleanContent (fence ++ '\n' :: (s ++ '\n' :: fence)) = s ∧
    cleanContent (fence ++ tagJson ++ '\n' :: (s ++ '\n' :: fence)) = s ∧
    cleanContent s = s ∧
    parseResponse env (fence ++ '\n' :: (s ++ '\n' :: fence)) = parseResponse env s ∧
    parseResponse env (fence ++ tagJson ++ '\n' :: (s ++ '\n' :: fence)) =
      parseResponse env s := by
  obtain ⟨m1, m2⟩ := matchHere_fenced s hhead hlast hno
  have t1 : trim (fence ++ '\n' :: (s ++ '\n' :: fence)) =
      fence ++ '\n' :: (s ++ '\n' :: fence) := by
    apply trim_eq_self
    · intro c hc
      simp only [fence, List.cons_append, List.head?_cons, Option.some.injEq] at hc
      rw [← hc]
      exact tick_not_whiteSpace
    · intro c hc
      rw [getLast?_fenced] at hc
      simp only [Option.some.injEq] at hc
      rw [← hc]
      exact tick_not_whiteSpace
  have t2 : trim (fence ++ tagJson ++ '\n' :: (s ++ '\n' :: fence)) =
      fence ++ tagJson ++ '\n' :: (s ++ '\n' :: fence) := by
    apply trim_eq_self
    · intro c hc
      simp only [fence, List.cons_append, List.head?_cons, Option.some.injEq] at hc
      rw [← hc]
      exact tick_not_whiteSpace
    · intro c hc
      rw [getLast?_fenced] at hc
      simp only [Option.some.injEq] at hc
      rw [← hc]
      exact tick_not_whiteSpace
  have c1 : cleanContent (fence ++ '\n' :: (s ++ '\n' :: fence)) = s := by
    simp only [cleanContent, t1, regexMatch_of_matchHere _ _ m1]
  have c2 : cleanContent (fence ++ tagJson ++ '\n' :: (s ++ '\n' :: fence)) = s := by
    simp only [cleanContent, t2, regexMatch_of_matchHere _ _ m2]
  have c3 : cleanContent s = s := by
    have hn : regexMatch s = none := by
      rw [regexMatch_eq_none_iff]
      rintro ⟨a, b, c, e⟩
      have hi : includes s fence = true :=
        (includes_iff _ _).mpr ⟨a, b ++ fence ++ c, by simp [e]⟩
      rw [hno] at hi
      cases hi
    simp only [cleanContent, trim_eq_self s hhead hlast, hn]
  refine ⟨c1, c2, c3, ?_, ?_⟩
  · simp only [parseResponse, c1, c3]
  · simp only [parseResponse, c2, c3]

theorem fenced_parses_as_unfenced_witness :
    cleanContent fencedOneCardText = oneCardText ∧
    parseResponse (sampleEnv [] [(oneCardText, .arr [cardQA])]) fencedOneCardText =
      .ok [cardQA] ∧
    parseResponse (sampleEnv [] [(oneCardText, .arr [cardQA])]) oneCardText =
      .ok [cardQA] :=
  have h := fenced_parses_as_unfenced (sampleEnv [] [(oneCardText, .arr [cardQA])])
    oneCardText (by decide) (by decide) (by decide)
  ⟨h.2.1, h.2.2.2.2.trans rfl, rfl⟩

end FlashCardGPT
